import Mathlib

/-!
Verification of the logseq-mcp-server repository: a shallow embedding of its
formatters, zod input schemas, HTTP client error handling and MCP tool
handlers, with theorems settling the frozen claims about the spec.

Strings are modelled with Lean `String` (JS strings abstracted as sequences
of characters); JSON numbers are modelled as `Int` (so zod's `.int()` check
is identically true and is not restated); JS `undefined`/optional values are
modelled with `Option`.
-/

/-- JSON-like values, as exchanged with the Logseq HTTP API. -/
inductive JValue where
  | jnull
  | jbool (b : Bool)
  | jnum (n : Int)
  | jstr (s : String)
  | jarr (xs : List JValue)
  | jobj (fields : List (String × JValue))
deriving Repr

/-- JS Array.prototype.join with separator "\n": empty array gives "",
singleton gives the element, otherwise elements interleaved with "\n". -/
def joinLines : List String → String
  | [] => ""
  | [l] => l
  | l :: l' :: ls => l ++ "\n" ++ joinLines (l' :: ls)

/-- Maximum character limit for a single tool response (src/constants.ts). -/
def CHARACTER_LIMIT : Nat := 100000

/-- Default pagination limit when listing pages (src/constants.ts). -/
def DEFAULT_PAGE_LIMIT : Nat := 50

/-- HTTP request timeout in milliseconds (src/constants.ts). -/
def REQUEST_TIMEOUT_MS : Nat := 30000

/-- Truncate text that exceeds CHARACTER_LIMIT (formatters.ts `truncate`). -/
def truncate (text : String) : String :=
  if text.length ≤ CHARACTER_LIMIT then text
  else
    text.take CHARACTER_LIMIT ++ "\n\n[Response truncated — "
      ++ toString (text.length - CHARACTER_LIMIT) ++ " characters omitted]"

/-- An MCP tool result: a flag marking failure and the single text content
item the handlers produce. -/
structure ToolResponse where
  isError : Bool
  text : String
deriving Repr, DecidableEq

/-- Build a successful text response (formatters.ts `textResponse`). -/
def textResponse (text : String) : ToolResponse :=
  { isError := false, text := truncate text }

/-- Build an error response (formatters.ts `errorResponse`). -/
def errorResponse (message : String) : ToolResponse :=
  { isError := true, text := message }

/-- Logseq block entity, restricted to the fields the tool handlers read:
uuid, content (optional, accessed with `?.` in the source) and children. -/
inductive BlockEntity where
  | mk (uuid : String) (content : Option String) (children : List BlockEntity)
deriving Repr

def BlockEntity.uuid : BlockEntity → String
  | .mk u _ _ => u

def BlockEntity.content : BlockEntity → Option String
  | .mk _ c _ => c

def BlockEntity.children : BlockEntity → List BlockEntity
  | .mk _ _ cs => cs

/-- Executable model of JS String.prototype.trim: drop leading and trailing
whitespace characters. -/
def jsTrim (s : String) : String :=
  String.mk (((s.data.dropWhile Char.isWhitespace).reverse.dropWhile
    Char.isWhitespace).reverse)

/-- The value of the JS expression `block.content?.trim()` coerced through
truthiness: `undefined` and a whitespace-only string both behave as the empty
string (falsy), otherwise the trimmed content is used. -/
def trimmedContent : Option String → String
  | some s => jsTrim s
  | none => ""

/-- Two spaces per depth level: the JS expression `"  ".repeat(depth)`. -/
def indentOf (depth : Nat) : String :=
  String.join (List.replicate depth "  ")

/-- The line (if any) a single node contributes: the body of the
`if (content)` push in formatters.ts `renderBlockTree`. -/
def lineOf (depth : Nat) (c : Option String) : List String :=
  if trimmedContent c = "" then []
  else [indentOf depth ++ "- " ++ trimmedContent c]

/-- The `lines` array built by formatters.ts `renderBlockTree`: per block,
its own line when the content is truthy, then — whenever the children list is
non-empty — the joined rendering of the children as a single pushed entry. -/
def renderItems : List BlockEntity → Nat → List String
  | [], _ => []
  | .mk _ c cs :: bs, depth =>
    lineOf depth c
      ++ (if cs.isEmpty then [] else [joinLines (renderItems cs (depth + 1))])
      ++ renderItems bs depth

/-- Render a block tree as indented Markdown (formatters.ts
`renderBlockTree`): the built lines joined with "\n". -/
def renderBlockTree (blocks : List BlockEntity) (depth : Nat := 0) : String :=
  joinLines (renderItems blocks depth)

/-- The lines the spec's words prescribe for the renderer: one line per node
with two-space indentation per depth level, skipping nodes with empty
content, children always rendered one level below the parent's depth. -/
def specLines : List BlockEntity → Nat → List String
  | [], _ => []
  | .mk _ c cs :: bs, d =>
    lineOf d c ++ specLines cs (d + 1) ++ specLines bs d

/-- Whether some node of the forest has non-blank content, i.e. contributes
a line of its own. -/
def anyLine : List BlockEntity → Bool
  | [] => false
  | .mk _ c cs :: bs =>
    (!(trimmedContent c = "" : Bool)) || anyLine cs || anyLine bs

/-- Forests in which every node that has children has at least one
descendant with non-blank content. -/
def goodForest : List BlockEntity → Bool
  | [] => true
  | .mk _ _ cs :: bs => (cs.isEmpty || anyLine cs) && goodForest cs && goodForest bs

/-- Logseq page entity, restricted to the fields the tool handlers read.
The `journal` field models the source's `"journal?"` flag; `nspace` models
the optional `namespace` reference (`namespace` is a Lean keyword), of which
only the id is used. -/
structure PageEntity where
  id : Int
  uuid : String
  name : String
  originalName : String
  journal : Bool
  nspace : Option Int
deriving Repr, DecidableEq

/-- Graph info returned by logseq.App.getCurrentGraph. -/
structure GraphInfo where
  name : String
  path : String
  url : String
deriving Repr, DecidableEq

/-- Format a page entity into a concise summary line (formatters.ts
`formatPageSummary`); `page.originalName || page.name` falls back on the
name when the original name is the (falsy) empty string. -/
def formatPageSummary (page : PageEntity) : String :=
  let journal := if page.journal then " 📅" else ""
  let ns := match page.nspace with
    | some nid => " (ns: " ++ toString nid ++ ")"
    | none => ""
  "- **" ++ (if page.originalName = "" then page.name else page.originalName)
    ++ "** (uuid: " ++ page.uuid ++ ")" ++ journal ++ ns

/-- The possible outcomes of one POST to the Logseq HTTP API as observed by
`LogseqClient.call` (logseq-client.ts): a decoded reply of the expected type,
a non-2xx status (with body text and statusText), a reply whose JSON
decoding throws, or the AbortController firing after REQUEST_TIMEOUT_MS. -/
inductive Reply (α : Type) where
  | ok (v : α)
  | httpError (status : Nat) (body : String) (statusText : String)
  | malformed (msg : String)
  | timeout

/-- Error propagation of `LogseqClient.call`: a non-ok status throws
"Logseq API error <status>: <body or statusText>", an abort throws the
timeout message, and other thrown errors propagate unchanged. Handlers
render the caught error with `extractErrorMessage`, which returns
`error.message`; the `Except.error` payload here is already that message. -/
def callResult {α : Type} : Reply α → Except String α
  | .ok v => .ok v
  | .httpError status body statusText =>
      .error ("Logseq API error " ++ toString status ++ ": "
        ++ (if body = "" then statusText else body))
  | .malformed msg => .error msg
  | .timeout =>
      .error ("Logseq API request timed out after " ++ toString REQUEST_TIMEOUT_MS
        ++ "ms. Ensure Logseq is running and the HTTP API server is started.")

/-- Whether a reply is a failure, i.e. the call would throw. -/
def Reply.failed {α : Type} : Reply α → Bool
  | .ok _ => false
  | _ => true

/-- One POST request to the single /api endpoint: the `LogseqApiRequest`
body carrying the method name and the positional argument list. -/
structure ApiCall where
  method : String
  args : List JValue
deriving Repr

/-- A JS Record<string, unknown> of properties. -/
abbrev Props := List (String × JValue)

/-- Optional property records are passed to createPage as `properties ?? &#123;&#125;`. -/
def jOfProps : Option Props → JValue
  | some ps => .jobj ps
  | none => .jobj []

/-- Page format accepted by CreatePageSchema. -/
inductive PageFormat where
  | markdown
  | org
deriving Repr, DecidableEq

def formatName : PageFormat → String
  | .markdown => "markdown"
  | .org => "org"

/-- Validated parameters of logseq_list_pages (output of ListPagesSchema:
integer limit in 1..500 defaulting to 50, non-negative integer offset
defaulting to 0, journal_only defaulting to false, optional namespace). -/
structure ListPagesParams where
  limit : Nat
  offset : Nat
  journal_only : Bool
  nspace : Option String
deriving Repr, DecidableEq

structure GetPageParams where
  name : String
  include_children : Bool
deriving Repr, DecidableEq

structure GetPageContentParams where
  name : String
deriving Repr, DecidableEq

structure CreatePageParams where
  name : String
  content : Option String
  properties : Option Props
  format : PageFormat
  journal : Bool
deriving Repr

structure DeletePageParams where
  name : String
deriving Repr, DecidableEq

structure RenamePageParams where
  old_name : String
  new_name : String
deriving Repr, DecidableEq

structure GetLinkedRefsParams where
  name : String
deriving Repr, DecidableEq

structure GetBlockParams where
  id : String
  include_children : Bool
deriving Repr, DecidableEq

structure InsertBlockParams where
  page_or_block : String
  content : String
  sibling : Bool
  before : Bool
  properties : Option Props
deriving Repr

structure AppendBlockParams where
  page : String
  content : String
  properties : Option Props
deriving Repr

structure UpdateBlockParams where
  id : String
  content : String
  properties : Option Props
deriving Repr

structure RemoveBlockParams where
  id : String
deriving Repr, DecidableEq

structure MoveBlockParams where
  src_id : String
  target_id : String
  before : Bool
  children : Bool
deriving Repr, DecidableEq

structure BatchChild where
  content : String
  properties : Option Props
deriving Repr

structure BatchBlock where
  content : String
  properties : Option Props
  children : Option (List BatchChild)
deriving Repr

structure InsertBatchParams where
  page_or_block : String
  blocks : List BatchBlock
  sibling : Bool
deriving Repr

structure BlockPropertyParams where
  id : String
  key : String
  value : Option JValue
deriving Repr

structure SearchParams where
  query : String
deriving Repr, DecidableEq

structure CreateJournalParams where
  date : String
deriving Repr, DecidableEq

/-- Reply shape of logseq.App.search. -/
structure SearchResult where
  blocks : List JValue
  pages : List String
deriving Repr

mutual
/-- Abstraction of JSON.stringify (a JS builtin, not repository code) over
the modelled JSON values; no claim depends on the exact serialized form. -/
def jsonStringify : JValue → String
  | .jnull => "null"
  | .jbool b => cond b "true" "false"
  | .jnum n => toString n
  | .jstr s => "\"" ++ s ++ "\""
  | .jarr xs => "[" ++ jsonStringifyArr xs ++ "]"
  | .jobj fs => "\x7b" ++ jsonStringifyObj fs ++ "\x7d"

def jsonStringifyArr : List JValue → String
  | [] => ""
  | [x] => jsonStringify x
  | x :: y :: xs => jsonStringify x ++ "," ++ jsonStringifyArr (y :: xs)

def jsonStringifyObj : List (String × JValue) → String
  | [] => ""
  | [(k, v)] => "\"" ++ k ++ "\":" ++ jsonStringify v
  | (k, v) :: f :: fs =>
    "\"" ++ k ++ "\":" ++ jsonStringify v ++ "," ++ jsonStringifyObj (f :: fs)
end

/-- Serialization of a page entity over its modelled fields. -/
def pageToJson (p : PageEntity) : JValue :=
  .jobj ([("id", .jnum p.id), ("uuid", .jstr p.uuid), ("name", .jstr p.name),
    ("originalName", .jstr p.originalName), ("journal?", .jbool p.journal)]
    ++ (match p.nspace with
        | some nid => [("namespace", JValue.jobj [("id", JValue.jnum nid)])]
        | none => []))

mutual
/-- Serialization of a block entity over its modelled fields. -/
def blockToJson : BlockEntity → JValue
  | .mk u c cs =>
    .jobj ([("uuid", .jstr u)]
      ++ (match c with | some s => [("content", JValue.jstr s)] | none => [])
      ++ [("children", .jarr (blocksToJson cs))])

def blocksToJson : List BlockEntity → List JValue
  | [] => []
  | b :: bs => blockToJson b :: blocksToJson bs
end

def graphToJson (g : GraphInfo) : JValue :=
  .jobj [("name", .jstr g.name), ("path", .jstr g.path), ("url", .jstr g.url)]

/-- Common shape of the tool handlers: the whole body runs in a try/catch
around one client call; a thrown error becomes
`errorResponse (pre ++ message ++ suf)`, otherwise the continuation shapes
the reply. Exactly the one listed call is made. -/
def withCall {α : Type} (c : ApiCall) (r : Reply α) (pre suf : String)
    (k : α → ToolResponse) : ToolResponse × List ApiCall :=
  match callResult r with
  | .error e => (errorResponse (pre ++ e ++ suf), [c])
  | .ok v => (k v, [c])

/-- The journal_only filter of logseq_list_pages (page-tools.ts). -/
def applyJournalFilter (p : ListPagesParams) (pages : List PageEntity) :
    List PageEntity :=
  if p.journal_only then pages.filter (fun pg => pg.journal) else pages

/-- The namespace-prefix filter of logseq_list_pages; the JS guard
`if (params.namespace)` also skips the (falsy) empty string. -/
def applyNamespaceFilter (p : ListPagesParams) (pages : List PageEntity) :
    List PageEntity :=
  match p.nspace with
  | some ns =>
    if ns = "" then pages
    else pages.filter (fun pg => pg.name.toLower.startsWith (ns.toLower ++ "/"))
  | none => pages

/-- Both logseq_list_pages filters, in source order. -/
def listPagesFiltered (p : ListPagesParams) (pages : List PageEntity) :
    List PageEntity :=
  applyNamespaceFilter p (applyJournalFilter p pages)

/-- Successful-path response text of logseq_list_pages: header and blank
line, one summary per page of the slice [offset, offset+limit) of the
filtered list, and — when offset+limit is below the filtered total — a blank
line plus the more-pages note. -/
def listPagesText (p : ListPagesParams) (pages0 : List PageEntity) : String :=
  let pages := listPagesFiltered p pages0
  let total := pages.length
  let sliced := (pages.drop p.offset).take p.limit
  joinLines (
    ["**Pages** (" ++ toString sliced.length ++ " of " ++ toString total ++ ")", ""]
    ++ sliced.map formatPageSummary
    ++ (if p.offset + p.limit < total then
        ["", "_More pages available. Use offset=" ++ toString (p.offset + p.limit)
          ++ " to see next batch._"]
      else []))

def listPagesHandler (p : ListPagesParams) (r : Reply (List PageEntity)) :
    ToolResponse × List ApiCall :=
  withCall ⟨"logseq.Editor.getAllPages", []⟩ r
    "Failed to list pages: " ". Ensure Logseq is running with HTTP APIs enabled."
    (fun pages => textResponse (listPagesText p pages))

def getPageHandler (p : GetPageParams) (r : Reply (Option PageEntity)) :
    ToolResponse × List ApiCall :=
  withCall ⟨"logseq.Editor.getPage",
      [.jstr p.name, .jobj [("includeChildren", .jbool p.include_children)]]⟩ r
    "Failed to get page: " ""
    (fun pg => match pg with
      | none => errorResponse ("Page \x27" ++ p.name
          ++ "\x27 not found. Use logseq_list_pages to see available pages.")
      | some page => textResponse (jsonStringify (pageToJson page)))

def getPageContentHandler (p : GetPageContentParams)
    (r : Reply (List BlockEntity)) : ToolResponse × List ApiCall :=
  withCall ⟨"logseq.Editor.getPageBlocksTree", [.jstr p.name]⟩ r
    "Failed to get page content: " ""
    (fun blocks =>
      if blocks.isEmpty then
        textResponse ("Page \x27" ++ p.name ++ "\x27 is empty or has no blocks.")
      else
        textResponse ("# " ++ p.name ++ "\n\n" ++ renderBlockTree blocks 0))

/-- JS truthiness of `params.content`: present and non-empty. -/
def hasContent (c : Option String) : Bool :=
  match c with
  | some s => !(s == "")
  | none => false

def createPageCall (p : CreatePageParams) : ApiCall :=
  ⟨"logseq.Editor.createPage",
    [.jstr p.name, jOfProps p.properties,
      .jobj [("redirect", .jbool false), ("format", .jstr (formatName p.format)),
        ("journal", .jbool p.journal)]]⟩

def appendContentCall (p : CreatePageParams) : ApiCall :=
  ⟨"logseq.Editor.appendBlockInPage",
    [.jstr p.name, .jstr (p.content.getD ""), .jobj []]⟩

/-- The logseq_create_page handler (page-tools.ts): one createPage call,
then — when the validated `content` is truthy — a second appendBlockInPage
call for the initial content. -/
def createPageHandler (p : CreatePageParams) (r1 : Reply PageEntity)
    (r2 : Reply BlockEntity) : ToolResponse × List ApiCall :=
  match callResult r1 with
  | .error e => (errorResponse ("Failed to create page: " ++ e), [createPageCall p])
  | .ok page =>
    if hasContent p.content then
      match callResult r2 with
      | .error e => (errorResponse ("Failed to create page: " ++ e),
          [createPageCall p, appendContentCall p])
      | .ok _ => (textResponse ("Page \x27" ++ p.name
            ++ "\x27 created successfully.\n\n" ++ jsonStringify (pageToJson page)),
          [createPageCall p, appendContentCall p])
    else
      (textResponse ("Page \x27" ++ p.name ++ "\x27 created successfully.\n\n"
          ++ jsonStringify (pageToJson page)), [createPageCall p])

def deletePageHandler (p : DeletePageParams) (r : Reply Unit) :
    ToolResponse × List ApiCall :=
  withCall ⟨"logseq.Editor.deletePage", [.jstr p.name]⟩ r
    "Failed to delete page: " ""
    (fun _ => textResponse ("Page \x27" ++ p.name ++ "\x27 deleted successfully."))

def renamePageHandler (p : RenamePageParams) (r : Reply Unit) :
    ToolResponse × List ApiCall :=
  withCall ⟨"logseq.Editor.renamePage", [.jstr p.old_name, .jstr p.new_name]⟩ r
    "Failed to rename page: " ""
    (fun _ => textResponse ("Page renamed from \x27" ++ p.old_name
      ++ "\x27 to \x27" ++ p.new_name ++ "\x27."))

/-- Linked-reference listing: a header, then per referencing page a heading
line and one line per block; an absent block content renders as the string
"undefined" (the JS template literal prints `undefined`). -/
def linkedRefsText (name : String)
    (refs : List (PageEntity × List BlockEntity)) : String :=
  joinLines (
    ("**Linked references for \x27" ++ name ++ "\x27** ("
        ++ toString refs.length ++ " pages)\n")
    :: refs.flatMap (fun pr =>
        ("### " ++ (if pr.1.originalName = "" then pr.1.name else pr.1.originalName))
          :: (pr.2.map (fun b => "  - " ++ (match b.content with
              | some s => jsTrim s
              | none => "undefined")))
          ++ [""]))

def getLinkedRefsHandler (p : GetLinkedRefsParams)
    (r : Reply (List (PageEntity × List BlockEntity))) :
    ToolResponse × List ApiCall :=
  withCall ⟨"logseq.Editor.getPageLinkedReferences", [.jstr p.name]⟩ r
    "Failed to get linked references: " ""
    (fun refs =>
      if refs.isEmpty then
        textResponse ("No linked references found for page \x27" ++ p.name ++ "\x27.")
      else textResponse (linkedRefsText p.name refs))

def getBlockHandler (p : GetBlockParams) (r : Reply (Option BlockEntity)) :
    ToolResponse × List ApiCall :=
  withCall ⟨"logseq.Editor.getBlock",
      [.jstr p.id, .jobj [("includeChildren", .jbool p.include_children)]]⟩ r
    "Failed to get block: " ""
    (fun ob => match ob with
      | none => errorResponse ("Block \x27" ++ p.id
          ++ "\x27 not found. Verify the UUID is correct.")
      | some b =>
        if p.include_children && !b.children.isEmpty then
          textResponse ("**Block " ++ b.uuid ++ "**\n\n" ++ renderBlockTree [b] 0
            ++ "\n\n---\nRaw:\n" ++ jsonStringify (blockToJson b))
        else textResponse (jsonStringify (blockToJson b)))

def insertBlockHandler (p : InsertBlockParams) (r : Reply BlockEntity) :
    ToolResponse × List ApiCall :=
  withCall ⟨"logseq.Editor.insertBlock",
      [.jstr p.page_or_block, .jstr p.content,
        .jobj ([("sibling", .jbool p.sibling), ("before", .jbool p.before)]
          ++ (match p.properties with
              | some ps => [("properties", JValue.jobj ps)]
              | none => []))]⟩ r
    "Failed to insert block: " ""
    (fun b => textResponse ("Block inserted successfully.\n\n"
      ++ jsonStringify (blockToJson b)))

def appendBlockHandler (p : AppendBlockParams) (r : Reply BlockEntity) :
    ToolResponse × List ApiCall :=
  withCall ⟨"logseq.Editor.appendBlockInPage",
      [.jstr p.page, .jstr p.content,
        .jobj (match p.properties with
          | some ps => [("properties", JValue.jobj ps)]
          | none => [])]⟩ r
    "Failed to append block: " ""
    (fun b => textResponse ("Block appended to \x27" ++ p.page ++ "\x27.\n\n"
      ++ jsonStringify (blockToJson b)))

def updateBlockHandler (p : UpdateBlockParams) (r : Reply Unit) :
    ToolResponse × List ApiCall :=
  withCall ⟨"logseq.Editor.updateBlock",
      [.jstr p.id, .jstr p.content,
        .jobj (match p.properties with
          | some ps => [("properties", JValue.jobj ps)]
          | none => [])]⟩ r
    "Failed to update block: " ""
    (fun _ => textResponse ("Block \x27" ++ p.id ++ "\x27 updated successfully."))

def removeBlockHandler (p : RemoveBlockParams) (r : Reply Unit) :
    ToolResponse × List ApiCall :=
  withCall ⟨"logseq.Editor.removeBlock", [.jstr p.id]⟩ r
    "Failed to remove block: " ""
    (fun _ => textResponse ("Block \x27" ++ p.id ++ "\x27 removed successfully."))

def moveBlockHandler (p : MoveBlockParams) (r : Reply Unit) :
    ToolResponse × List ApiCall :=
  withCall ⟨"logseq.Editor.moveBlock",
      [.jstr p.src_id, .jstr p.target_id,
        .jobj [("before", .jbool p.before), ("children", .jbool p.children)]]⟩ r
    "Failed to move block: " ""
    (fun _ => textResponse ("Block \x27" ++ p.src_id ++ "\x27 moved to \x27"
      ++ p.target_id ++ "\x27."))

def batchChildToJson (c : BatchChild) : JValue :=
  .jobj ([("content", .jstr c.content)]
    ++ (match c.properties with
        | some ps => [("properties", JValue.jobj ps)]
        | none => []))

def batchBlockToJson (b : BatchBlock) : JValue :=
  .jobj ([("content", .jstr b.content)]
    ++ (match b.properties with
        | some ps => [("properties", JValue.jobj ps)]
        | none => [])
    ++ (match b.children with
        | some cs => [("children", JValue.jarr (cs.map batchChildToJson))]
        | none => []))

def insertBatchHandler (p : InsertBatchParams) (r : Reply (List BlockEntity)) :
    ToolResponse × List ApiCall :=
  withCall ⟨"logseq.Editor.insertBatchBlock",
      [.jstr p.page_or_block, .jarr (p.blocks.map batchBlockToJson),
        .jobj [("sibling", .jbool p.sibling)]]⟩ r
    "Failed to insert batch blocks: " ""
    (fun result => textResponse (toString result.length
      ++ " blocks inserted successfully.\n\n"
      ++ jsonStringify (.jarr (blocksToJson result))))

/-- The logseq_block_property handler: an upsert call when `value` was
provided, otherwise a read of the current properties — one call either way. -/
def blockPropertyHandler (p : BlockPropertyParams) (rset : Reply Unit)
    (rget : Reply Props) : ToolResponse × List ApiCall :=
  match p.value with
  | some v =>
    withCall ⟨"logseq.Editor.upsertBlockProperty", [.jstr p.id, .jstr p.key, v]⟩
      rset "Failed to access block property: " ""
      (fun _ => textResponse ("Property \x27" ++ p.key ++ "\x27 set on block \x27"
        ++ p.id ++ "\x27."))
  | none =>
    withCall ⟨"logseq.Editor.getBlockProperties", [.jstr p.id]⟩ rget
      "Failed to access block property: " ""
      (fun props => textResponse (jsonStringify (.jobj props)))

/-- JS String(x) coercion for the non-object branch of the search snippet. -/
def jsString : JValue → String
  | .jnull => "null"
  | .jbool b => cond b "true" "false"
  | .jnum n => toString n
  | .jstr s => s
  | .jarr xs => jsonStringify (.jarr xs)
  | .jobj fs => jsonStringify (.jobj fs)

/-- The snippet line for one search-result block: objects and arrays (JS
`typeof` "object", non-null) are JSON.stringified, anything else is
String-coerced. -/
def searchBlockLine (b : JValue) : String :=
  match b with
  | .jobj _ => "- " ++ jsonStringify b
  | .jarr _ => "- " ++ jsonStringify b
  | _ => "- " ++ jsString b

def searchText (q : String) (result : SearchResult) : String :=
  joinLines (
    ["**Search results for \x27" ++ q ++ "\x27**\n"]
    ++ (if result.pages.isEmpty then [] else
        ("### Pages (" ++ toString result.pages.length ++ ")")
          :: result.pages.map (fun pg => "- " ++ pg) ++ [""])
    ++ (if result.blocks.isEmpty then [] else
        ("### Blocks (" ++ toString result.blocks.length ++ ")")
          :: result.blocks.map searchBlockLine ++ [""])
    ++ (if result.pages.isEmpty && result.blocks.isEmpty then
        ["No results found for \x27" ++ q ++ "\x27. Try broader search terms."]
      else []))

def searchHandler (p : SearchParams) (r : Reply SearchResult) :
    ToolResponse × List ApiCall :=
  withCall ⟨"logseq.App.search", [.jstr p.query]⟩ r "Search failed: " ""
    (fun result => textResponse (searchText p.query result))

def createJournalHandler (p : CreateJournalParams) (r : Reply PageEntity) :
    ToolResponse × List ApiCall :=
  withCall ⟨"logseq.Editor.createJournalPage", [.jstr p.date]⟩ r
    "Failed to create journal page: " ""
    (fun page => textResponse ("Journal page created for \x27" ++ p.date
      ++ "\x27.\n\n" ++ jsonStringify (pageToJson page)))

def getGraphInfoHandler (r : Reply (Option GraphInfo)) :
    ToolResponse × List ApiCall :=
  withCall ⟨"logseq.App.getCurrentGraph", []⟩ r "Failed to get graph info: " ""
    (fun og => match og with
      | none => errorResponse "No graph is currently open in Logseq."
      | some g => textResponse (jsonStringify (graphToJson g)))

def tagsText (tags : List PageEntity) : String :=
  joinLines (("**Tags** (" ++ toString tags.length ++ ")\n")
    :: tags.map (fun t => "- "
      ++ (if t.originalName = "" then t.name else t.originalName)
      ++ " (uuid: " ++ t.uuid ++ ")"))

def getAllTagsHandler (r : Reply (List PageEntity)) :
    ToolResponse × List ApiCall :=
  withCall ⟨"logseq.Editor.getAllTags", []⟩ r "Failed to get tags: " ""
    (fun tags =>
      if tags.isEmpty then textResponse "No tags found in the current graph."
      else textResponse (tagsText tags))

/-- One tool invocation with already-validated parameters, together with the
remote replies the handler may consume. -/
inductive Invocation where
  | listPages (p : ListPagesParams) (r : Reply (List PageEntity))
  | getPage (p : GetPageParams) (r : Reply (Option PageEntity))
  | getPageContent (p : GetPageContentParams) (r : Reply (List BlockEntity))
  | createPage (p : CreatePageParams) (r1 : Reply PageEntity) (r2 : Reply BlockEntity)
  | deletePage (p : DeletePageParams) (r : Reply Unit)
  | renamePage (p : RenamePageParams) (r : Reply Unit)
  | getPageLinkedReferences (p : GetLinkedRefsParams)
      (r : Reply (List (PageEntity × List BlockEntity)))
  | getBlock (p : GetBlockParams) (r : Reply (Option BlockEntity))
  | insertBlock (p : InsertBlockParams) (r : Reply BlockEntity)
  | appendBlock (p : AppendBlockParams) (r : Reply BlockEntity)
  | updateBlock (p : UpdateBlockParams) (r : Reply Unit)
  | removeBlock (p : RemoveBlockParams) (r : Reply Unit)
  | moveBlock (p : MoveBlockParams) (r : Reply Unit)
  | insertBatchBlocks (p : InsertBatchParams) (r : Reply (List BlockEntity))
  | blockProperty (p : BlockPropertyParams) (rset : Reply Unit) (rget : Reply Props)
  | search (p : SearchParams) (r : Reply SearchResult)
  | createJournal (p : CreateJournalParams) (r : Reply PageEntity)
  | getGraphInfo (r : Reply (Option GraphInfo))
  | getAllTags (r : Reply (List PageEntity))

/-- The registered tool catalog: route an invocation to its handler. -/
def dispatch : Invocation → ToolResponse × List ApiCall
  | .listPages p r => listPagesHandler p r
  | .getPage p r => getPageHandler p r
  | .getPageContent p r => getPageContentHandler p r
  | .createPage p r1 r2 => createPageHandler p r1 r2
  | .deletePage p r => deletePageHandler p r
  | .renamePage p r => renamePageHandler p r
  | .getPageLinkedReferences p r => getLinkedRefsHandler p r
  | .getBlock p r => getBlockHandler p r
  | .insertBlock p r => insertBlockHandler p r
  | .appendBlock p r => appendBlockHandler p r
  | .updateBlock p r => updateBlockHandler p r
  | .removeBlock p r => removeBlockHandler p r
  | .moveBlock p r => moveBlockHandler p r
  | .insertBatchBlocks p r => insertBatchHandler p r
  | .blockProperty p rset rget => blockPropertyHandler p rset rget
  | .search p r => searchHandler p r
  | .createJournal p r => createJournalHandler p r
  | .getGraphInfo r => getGraphInfoHandler r
  | .getAllTags r => getAllTagsHandler r

/-- Whether some reply actually consumed by the invocation is a failure. -/
def consumedFailed : Invocation → Bool
  | .listPages _ r => r.failed
  | .getPage _ r => r.failed
  | .getPageContent _ r => r.failed
  | .createPage p r1 r2 => r1.failed || (hasContent p.content && r2.failed)
  | .deletePage _ r => r.failed
  | .renamePage _ r => r.failed
  | .getPageLinkedReferences _ r => r.failed
  | .getBlock _ r => r.failed
  | .insertBlock _ r => r.failed
  | .appendBlock _ r => r.failed
  | .updateBlock _ r => r.failed
  | .removeBlock _ r => r.failed
  | .moveBlock _ r => r.failed
  | .insertBatchBlocks _ r => r.failed
  | .blockProperty p rset rget =>
    match p.value with
    | some _ => rset.failed
    | none => rget.failed
  | .search _ r => r.failed
  | .createJournal _ r => r.failed
  | .getGraphInfo r => r.failed
  | .getAllTags r => r.failed

/-- The one invocation shape that issues a second call: logseq_create_page
with truthy initial content whose creation call succeeded. -/
def twoCallInvocation : Invocation → Bool
  | .createPage p r1 _ => hasContent p.content && !r1.failed
  | _ => false

/-- Recognized keys of ListPagesSchema; `.strict()` rejects any others. -/
def listPagesKeys : List String := ["limit", "offset", "journal_only", "namespace"]

def parseLimit : Option JValue → Except String Nat
  | none => .ok 50
  | some (.jnum n) =>
    if 1 ≤ n ∧ n ≤ 500 then .ok n.toNat
    else .error "limit must be between 1 and 500"
  | some _ => .error "limit must be a number"

def parseOffset : Option JValue → Except String Nat
  | none => .ok 0
  | some (.jnum n) =>
    if 0 ≤ n then .ok n.toNat else .error "offset must be at least 0"
  | some _ => .error "offset must be a number"

def parseJournalOnly : Option JValue → Except String Bool
  | none => .ok false
  | some (.jbool b) => .ok b
  | some _ => .error "journal_only must be a boolean"

def parseNamespaceField : Option JValue → Except String (Option String)
  | none => .ok none
  | some (.jstr s) => .ok (some s)
  | some _ => .error "namespace must be a string"

/-- Validation of a raw argument object against ListPagesSchema
(schemas/index.ts): strict key set; integer limit in 1..500 defaulting to
50; non-negative integer offset defaulting to 0; boolean journal_only
defaulting to false; optional string namespace. -/
def parseListPages (obj : List (String × JValue)) :
    Except String ListPagesParams :=
  if obj.all (fun kv => listPagesKeys.contains kv.1) then
    match parseLimit (List.lookup "limit" obj) with
    | .error e => .error e
    | .ok l =>
      match parseOffset (List.lookup "offset" obj) with
      | .error e => .error e
      | .ok o =>
        match parseJournalOnly (List.lookup "journal_only" obj) with
        | .error e => .error e
        | .ok j =>
          match parseNamespaceField (List.lookup "namespace" obj) with
          | .error e => .error e
          | .ok ns => .ok ⟨l, o, j, ns⟩
  else .error "Unrecognized key in arguments"

def searchKeys : List String := ["query"]

/-- Validation of a raw argument object against SearchSchema
(schemas/index.ts): strict key set and a required query string of 1 to 500
characters. -/
def parseSearch (obj : List (String × JValue)) : Except String SearchParams :=
  if obj.all (fun kv => searchKeys.contains kv.1) then
    match List.lookup "query" obj with
    | none => .error "query is required"
    | some (.jstr s) =>
      if 1 ≤ s.length ∧ s.length ≤ 500 then .ok ⟨s⟩
      else .error "query must be between 1 and 500 characters"
    | some _ => .error "query must be a string"
  else .error "Unrecognized key in arguments"

/-- One raw field admissible for ListPagesSchema, following the schema's
declared constraints. -/
def listPagesFieldOk (k : String) (v : JValue) : Bool :=
  if k = "limit" then
    match v with
    | .jnum n => decide (1 ≤ n ∧ n ≤ 500)
    | _ => false
  else if k = "offset" then
    match v with
    | .jnum n => decide (0 ≤ n)
    | _ => false
  else if k = "journal_only" then
    match v with
    | .jbool _ => true
    | _ => false
  else if k = "namespace" then
    match v with
    | .jstr _ => true
    | _ => false
  else false

/-- A raw argument object satisfying every declared constraint of
ListPagesSchema. -/
def listPagesValidInput (obj : List (String × JValue)) : Bool :=
  obj.all (fun kv => listPagesFieldOk kv.1 kv.2)

/-- Modelled from the spec: the MCP SDK (absent from src/, it is the
library the tools are registered with) validates raw tool arguments against
the registered zod schema before the handler runs; a validation failure is
surfaced as a failure result and the handler — hence any network call — is
never reached. -/
def invokeListPagesRaw (obj : List (String × JValue))
    (r : Reply (List PageEntity)) : ToolResponse × List ApiCall :=
  match parseListPages obj with
  | .error e => (errorResponse e, [])
  | .ok p => listPagesHandler p r

/-- Modelled from the spec: as `invokeListPagesRaw`, for logseq_search. -/
def invokeSearchRaw (obj : List (String × JValue)) (r : Reply SearchResult) :
    ToolResponse × List ApiCall :=
  match parseSearch obj with
  | .error e => (errorResponse e, [])
  | .ok p => searchHandler p r

/-- A concrete over-limit response string: 100001 copies of the letter a. -/
def bigResponseInput : String :=
  String.mk (List.replicate (CHARACTER_LIMIT + 1) 'a')

theorem joinLines_cons (x : String) (ys : List String) (h : ys ≠ []) :
    joinLines (x :: ys) = x ++ "\n" ++ joinLines ys := by
  cases ys with
  | nil => exact absurd rfl h
  | cons y ys' => rfl

theorem joinLines_append (xs ys : List String) (hx : xs ≠ []) (hy : ys ≠ []) :
    joinLines (xs ++ ys) = joinLines xs ++ "\n" ++ joinLines ys := by
  induction xs with
  | nil => exact absurd rfl hx
  | cons x xs ih =>
    cases xs with
    | nil =>
      simp only [List.cons_append, List.nil_append]
      rw [joinLines_cons x ys hy]
      rfl
    | cons x' xs' =>
      rw [List.cons_append,
        joinLines_cons x ((x' :: xs') ++ ys) (by simp),
        joinLines_cons x (x' :: xs') (by simp),
        ih (by simp) ]
      simp [String.append_assoc]

theorem joinLines_flatten (A ys : List String) (hA : A ≠ []) :
    joinLines (joinLines A :: ys) = joinLines (A ++ ys) := by
  cases ys with
  | nil => simp [joinLines]
  | cons y ys' =>
    rw [joinLines_cons _ _ (by simp), joinLines_append A (y :: ys') hA (by simp)]

theorem joinLines_congr_append (P Q R S : List String)
    (h1 : joinLines P = joinLines R) (h2 : P = [] ↔ R = [])
    (h3 : joinLines Q = joinLines S) (h4 : Q = [] ↔ S = []) :
    joinLines (P ++ Q) = joinLines (R ++ S) ∧ (P ++ Q = [] ↔ R ++ S = []) := by
  constructor
  · by_cases hP : P = []
    · have hR : R = [] := h2.mp hP
      simpa [hP, hR] using h3
    · have hR : R ≠ [] := fun h => hP (h2.mpr h)
      by_cases hQ : Q = []
      · have hS : S = [] := h4.mp hQ
        simpa [hQ, hS] using h1
      · have hS : S ≠ [] := fun h => hQ (h4.mpr h)
        rw [joinLines_append P Q hP hQ, joinLines_append R S hR hS, h1, h3]
  · rw [List.append_eq_nil, List.append_eq_nil, h2, h4]

theorem anyLine_specLines : ∀ (bs : List BlockEntity) (d : Nat),
    anyLine bs = true → specLines bs d ≠ [] := by
  intro bs
  induction bs using anyLine.induct with
  | case1 => intro d h; simp [anyLine] at h
  | case2 u c cs bs ih1 ih2 =>
    intro d h
    simp only [anyLine, Bool.or_eq_true, Bool.not_eq_true'] at h
    intro hnil
    simp only [specLines, List.append_eq_nil] at hnil
    obtain ⟨⟨hline, hcs⟩, hbs⟩ := hnil
    rcases h with (h | h) | h
    · rw [lineOf, if_neg (by simpa using h)] at hline
      exact List.cons_ne_nil _ _ hline
    · exact ih1 (d + 1) h hcs
    · exact ih2 d h hbs

theorem renderItems_spec : ∀ (bs : List BlockEntity) (d : Nat),
    goodForest bs = true →
    joinLines (renderItems bs d) = joinLines (specLines bs d)
      ∧ (renderItems bs d = [] ↔ specLines bs d = []) := by
  intro bs d
  induction bs, d using renderItems.induct with
  | case1 d => exact fun _ => by simp [renderItems, specLines]
  | case2 u c cs bs d ih1 ih2 =>
    intro h
    simp only [goodForest, Bool.and_eq_true, Bool.or_eq_true] at h
    obtain ⟨⟨h0, hcs⟩, hbs⟩ := h
    have icc := ih1 hcs
    have ibb := ih2 hbs
    have hC : joinLines (if cs.isEmpty then []
            else [joinLines (renderItems cs (d + 1))])
          = joinLines (specLines cs (d + 1))
        ∧ ((if cs.isEmpty then [] else [joinLines (renderItems cs (d + 1))]) = []
          ↔ specLines cs (d + 1) = []) := by
      cases cs with
      | nil => simp [renderItems, specLines]
      | cons c0 cs0 =>
        have hany : anyLine (c0 :: cs0) = true := by
          rcases h0 with h0 | h0
          · simp [List.isEmpty] at h0
          · exact h0
        have hne := anyLine_specLines (c0 :: cs0) (d + 1) hany
        simp only [List.isEmpty_cons, if_neg Bool.false_ne_true]
        refine ⟨?_, ?_⟩
        · show joinLines [joinLines (renderItems (c0 :: cs0) (d + 1))] = _
          show joinLines (renderItems (c0 :: cs0) (d + 1)) = _
          exact icc.1
        · simp [hne]
    have inner := joinLines_congr_append (lineOf d c)
      (if cs.isEmpty then [] else [joinLines (renderItems cs (d + 1))])
      (lineOf d c) (specLines cs (d + 1)) rfl Iff.rfl hC.1 hC.2
    have outer := joinLines_congr_append
      (lineOf d c ++ if cs.isEmpty then [] else [joinLines (renderItems cs (d + 1))])
      (renderItems bs d) (lineOf d c ++ specLines cs (d + 1)) (specLines bs d)
      inner.1 inner.2 ibb.1 ibb.2
    simp only [renderItems, specLines]
    exact outer

/-- Claim C1: for every response string of length L greater than 100000
characters, the rendered tool response equals exactly the first 100000
characters of the string followed by an appended note stating that
L - 100000 characters were omitted. -/
theorem truncate_long (s : String) (h : CHARACTER_LIMIT < s.length) :
    textResponse s = ⟨false, s.take CHARACTER_LIMIT ++ "\n\n[Response truncated — "
      ++ toString (s.length - CHARACTER_LIMIT) ++ " characters omitted]"⟩ := by
  unfold textResponse truncate
  rw [if_neg (Nat.not_le.mpr h)]

/-- Witness for claim C1 at a concrete 100001-character string. -/
theorem truncate_long_witness :
    CHARACTER_LIMIT < bigResponseInput.length
      ∧ textResponse bigResponseInput
        = ⟨false, bigResponseInput.take CHARACTER_LIMIT ++ "\n\n[Response truncated — "
            ++ toString (bigResponseInput.length - CHARACTER_LIMIT)
            ++ " characters omitted]"⟩ := by
  have h : CHARACTER_LIMIT < bigResponseInput.length := by
    simp [bigResponseInput, String.length]
  exact ⟨h, truncate_long bigResponseInput h⟩

/-- Claim C3: rendering the block tree with a single root node of content A
whose only child has content B, at depth 0, yields exactly the string
consisting of the line dash-space-A, a newline, and the line
space-space-dash-space-B. -/
theorem renderBlockTree_concrete :
    renderBlockTree [BlockEntity.mk "" (some "A") [BlockEntity.mk "" (some "B") []]] 0
      = "- A\n  - B" := by
  simp only [renderBlockTree, renderItems]
  decide

/-- Counterexample to claim C2 as stated: a first node with content A
followed by a node with empty content whose only child also has empty
content renders with an extra trailing empty line, while the claimed
per-node lines consist only of the line for A. -/
theorem renderBlockTree_spec_cex :
    renderBlockTree [BlockEntity.mk "" (some "A") [],
        BlockEntity.mk "" (some "") [BlockEntity.mk "" (some "") []]] 0
      ≠ joinLines (specLines [BlockEntity.mk "" (some "A") [],
        BlockEntity.mk "" (some "") [BlockEntity.mk "" (some "") []]] 0) := by
  simp only [renderBlockTree, renderItems, specLines]
  decide

/-- Claim C2 (amended): for every block tree in which every node that has
children has at least one descendant with non-blank content, the renderer
emits one line per node with two-space indentation per depth level, skipping
any node whose content is empty while still descending into its children;
the children of a skipped node are rendered one indentation level below the
skipped node's depth, exactly as if the parent's line existed. (As stated
the claim fails: a node whose non-empty children list renders to nothing
still contributes an empty line, see the counterexample.) -/
theorem renderBlockTree_good_spec (bs : List BlockEntity) (d : Nat)
    (h : goodForest bs = true) :
    renderBlockTree bs d = joinLines (specLines bs d) :=
  (renderItems_spec bs d h).1

/-- Witness for the amended claim C2 at a concrete tree: a root with
content A, a blank middle node, and a grandchild B rendered two levels
deep. -/
theorem renderBlockTree_good_spec_witness :
    goodForest [BlockEntity.mk "" (some "A")
        [BlockEntity.mk "" none [BlockEntity.mk "" (some "B") []]]] = true
      ∧ renderBlockTree [BlockEntity.mk "" (some "A")
          [BlockEntity.mk "" none [BlockEntity.mk "" (some "B") []]]] 0
        = joinLines (specLines [BlockEntity.mk "" (some "A")
            [BlockEntity.mk "" none [BlockEntity.mk "" (some "B") []]]] 0) := by
  have h : goodForest [BlockEntity.mk "" (some "A")
      [BlockEntity.mk "" none [BlockEntity.mk "" (some "B") []]]] = true := by
    simp only [goodForest, anyLine]
    decide
  exact ⟨h, renderBlockTree_good_spec _ 0 h⟩

/-- Claim C10: the renderer trims leading and trailing whitespace from a
node's content before emitting its line, and a node whose content is only
whitespace (or absent) is treated exactly like an empty-content node: no
line of its own is emitted, while its children are still rendered. -/
theorem renderBlockTree_trim_blank (s t u u' : String) (cs bs : List BlockEntity)
    (d : Nat) (hs : jsTrim s = "") (ht : jsTrim t ≠ "") :
    renderBlockTree (BlockEntity.mk u (some s) cs :: bs) d
        = renderBlockTree (BlockEntity.mk u' none cs :: bs) d
      ∧ renderItems (BlockEntity.mk u (some t) cs :: bs) d
        = (indentOf d ++ "- " ++ jsTrim t)
          :: renderItems (BlockEntity.mk u' none cs :: bs) d
      ∧ renderItems (BlockEntity.mk u' none cs :: bs) d
        = (if cs.isEmpty then [] else [renderBlockTree cs (d + 1)])
          ++ renderItems bs d := by
  refine ⟨?_, ?_, ?_⟩
  · simp [renderBlockTree, renderItems, lineOf, trimmedContent, hs]
  · simp [renderItems, lineOf, trimmedContent, ht]
  · simp [renderItems, lineOf, trimmedContent, renderBlockTree]

/-- Witness for claim C10 at concrete whitespace-only and non-blank
contents. -/
theorem renderBlockTree_trim_blank_witness :
    jsTrim " " = "" ∧ jsTrim " A " ≠ ""
      ∧ (renderBlockTree [BlockEntity.mk "x" (some " ") []] 0
          = renderBlockTree [BlockEntity.mk "y" none []] 0
        ∧ renderItems [BlockEntity.mk "x" (some " A ") []] 0
          = (indentOf 0 ++ "- " ++ jsTrim " A ")
            :: renderItems [BlockEntity.mk "y" none []] 0
        ∧ renderItems [BlockEntity.mk "y" none []] 0
          = (if ([] : List BlockEntity).isEmpty then []
              else [renderBlockTree ([] : List BlockEntity) (0 + 1)])
            ++ renderItems ([] : List BlockEntity) 0) :=
  ⟨by decide, by decide,
    renderBlockTree_trim_blank " " " A " "x" "y" [] [] 0 (by decide) (by decide)⟩

/-- Claim C7: a request that receives no reply within the fixed 30000 ms
timeout is aborted and yields the timeout-specific message (naming the
timeout duration), which differs from every generic HTTP-error message the
client can produce. -/
theorem call_timeout_message :
    callResult (Reply.timeout : Reply JValue)
        = Except.error ("Logseq API request timed out after "
            ++ toString REQUEST_TIMEOUT_MS
            ++ "ms. Ensure Logseq is running and the HTTP API server is started.")
      ∧ ∀ (status : Nat) (body statusText : String),
          callResult (Reply.httpError status body statusText : Reply JValue)
            ≠ callResult (Reply.timeout : Reply JValue) := by
  refine ⟨rfl, ?_⟩
  intro status body statusText h
  have h' : "Logseq API error " ++ toString status ++ ": "
      ++ (if body = "" then statusText else body)
      = "Logseq API request timed out after " ++ toString REQUEST_TIMEOUT_MS
        ++ "ms. Ensure Logseq is running and the HTTP API server is started." := by
    injection h
  have hdata := congrArg String.data h'
  rw [String.data_append, String.data_append, String.data_append,
    List.append_assoc, List.append_assoc] at hdata
  have h17 := congrArg (List.take 17) hdata
  rw [show (17 : Nat) = ("Logseq API error ".data).length from rfl,
    List.take_left] at h17
  have : ("Logseq API error ".data)
      = List.take ("Logseq API error ".data).length
          ("Logseq API request timed out after " ++ toString REQUEST_TIMEOUT_MS
            ++ "ms. Ensure Logseq is running and the HTTP API server is started.").data :=
    h17
  revert this
  decide

/-- Witness for claim C7: a concrete HTTP 500 failure message differs from
the timeout message. -/
theorem call_timeout_message_witness :
    callResult (Reply.httpError 500 "oops" "Server Error" : Reply JValue)
      ≠ callResult (Reply.timeout : Reply JValue) :=
  call_timeout_message.2 500 "oops" "Server Error"

theorem withCall_snd {α : Type} (c : ApiCall) (r : Reply α) (pre suf : String)
    (k : α → ToolResponse) : (withCall c r pre suf k).2 = [c] := by
  unfold withCall
  cases callResult r <;> rfl

/-- Counterexample to claim C6 as stated: a logseq_create_page invocation
with initial content issues two POST requests, not one. -/
theorem dispatch_one_call_cex :
    ((dispatch (Invocation.createPage ⟨"P", some "hello", none, PageFormat.markdown, false⟩
        (Reply.ok ⟨1, "u1", "P", "P", false, none⟩)
        (Reply.ok (BlockEntity.mk "u2" (some "hello") [])))).2).length ≠ 1 := by
  simp [dispatch, createPageHandler, callResult, hasContent]

/-- Claim C6 (amended): every tool invocation with validated parameters
performs exactly one network call — one POST request carrying a method name
and a positional argument list, with no retries — except logseq_create_page
invoked with truthy initial content whose creation call succeeded, which
performs exactly two calls: the page creation followed by the content
append. -/
theorem dispatch_call_count (inv : Invocation) :
    (twoCallInvocation inv = false → (dispatch inv).2.length = 1)
      ∧ (twoCallInvocation inv = true → (dispatch inv).2.length = 2) := by
  cases inv with
  | createPage p r1 r2 =>
    constructor
    · intro h
      cases r1 with
      | ok v =>
        have hc : hasContent p.content = false := by
          simpa [twoCallInvocation, Reply.failed] using h
        simp [dispatch, createPageHandler, callResult, hc]
      | httpError st b stx => simp [dispatch, createPageHandler, callResult]
      | malformed m => simp [dispatch, createPageHandler, callResult]
      | timeout => simp [dispatch, createPageHandler, callResult]
    · intro h
      cases r1 with
      | ok v =>
        have hc : hasContent p.content = true := by
          simpa [twoCallInvocation, Reply.failed] using h
        cases r2 <;> simp [dispatch, createPageHandler, callResult, hc]
      | httpError st b stx => simp [twoCallInvocation, Reply.failed] at h
      | malformed m => simp [twoCallInvocation, Reply.failed] at h
      | timeout => simp [twoCallInvocation, Reply.failed] at h
  | blockProperty p rset rget =>
    refine ⟨fun _ => ?_, fun h => by simp [twoCallInvocation] at h⟩
    rcases hv : p.value with _ | v
      <;> simp [dispatch, blockPropertyHandler, hv, withCall_snd]
  | listPages p r =>
    exact ⟨fun _ => by simp [dispatch, listPagesHandler, withCall_snd],
      fun h => by simp [twoCallInvocation] at h⟩
  | getPage p r =>
    exact ⟨fun _ => by simp [dispatch, getPageHandler, withCall_snd],
      fun h => by simp [twoCallInvocation] at h⟩
  | getPageContent p r =>
    exact ⟨fun _ => by simp [dispatch, getPageContentHandler, withCall_snd],
      fun h => by simp [twoCallInvocation] at h⟩
  | deletePage p r =>
    exact ⟨fun _ => by simp [dispatch, deletePageHandler, withCall_snd],
      fun h => by simp [twoCallInvocation] at h⟩
  | renamePage p r =>
    exact ⟨fun _ => by simp [dispatch, renamePageHandler, withCall_snd],
      fun h => by simp [twoCallInvocation] at h⟩
  | getPageLinkedReferences p r =>
    exact ⟨fun _ => by simp [dispatch, getLinkedRefsHandler, withCall_snd],
      fun h => by simp [twoCallInvocation] at h⟩
  | getBlock p r =>
    exact ⟨fun _ => by simp [dispatch, getBlockHandler, withCall_snd],
      fun h => by simp [twoCallInvocation] at h⟩
  | insertBlock p r =>
    exact ⟨fun _ => by simp [dispatch, insertBlockHandler, withCall_snd],
      fun h => by simp [twoCallInvocation] at h⟩
  | appendBlock p r =>
    exact ⟨fun _ => by simp [dispatch, appendBlockHandler, withCall_snd],
      fun h => by simp [twoCallInvocation] at h⟩
  | updateBlock p r =>
    exact ⟨fun _ => by simp [dispatch, updateBlockHandler, withCall_snd],
      fun h => by simp [twoCallInvocation] at h⟩
  | removeBlock p r =>
    exact ⟨fun _ => by simp [dispatch, removeBlockHandler, withCall_snd],
      fun h => by simp [twoCallInvocation] at h⟩
  | moveBlock p r =>
    exact ⟨fun _ => by simp [dispatch, moveBlockHandler, withCall_snd],
      fun h => by simp [twoCallInvocation] at h⟩
  | insertBatchBlocks p r =>
    exact ⟨fun _ => by simp [dispatch, insertBatchHandler, withCall_snd],
      fun h => by simp [twoCallInvocation] at h⟩
  | search p r =>
    exact ⟨fun _ => by simp [dispatch, searchHandler, withCall_snd],
      fun h => by simp [twoCallInvocation] at h⟩
  | createJournal p r =>
    exact ⟨fun _ => by simp [dispatch, createJournalHandler, withCall_snd],
      fun h => by simp [twoCallInvocation] at h⟩
  | getGraphInfo r =>
    exact ⟨fun _ => by simp [dispatch, getGraphInfoHandler, withCall_snd],
      fun h => by simp [twoCallInvocation] at h⟩
  | getAllTags r =>
    exact ⟨fun _ => by simp [dispatch, getAllTagsHandler, withCall_snd],
      fun h => by simp [twoCallInvocation] at h⟩

/-- Witness for the amended claim C6: a concrete one-call search invocation
and a concrete two-call create-page invocation. -/
theorem dispatch_call_count_witness :
    (twoCallInvocation (Invocation.search ⟨"q"⟩ (Reply.ok ⟨[], []⟩)) = false
      ∧ (dispatch (Invocation.search ⟨"q"⟩ (Reply.ok ⟨[], []⟩))).2.length = 1)
    ∧ (twoCallInvocation (Invocation.createPage
          ⟨"P", some "hi", none, PageFormat.markdown, false⟩
          (Reply.ok ⟨1, "u1", "P", "P", false, none⟩)
          (Reply.ok (BlockEntity.mk "u2" (some "hi") []))) = true
      ∧ (dispatch (Invocation.createPage
          ⟨"P", some "hi", none, PageFormat.markdown, false⟩
          (Reply.ok ⟨1, "u1", "P", "P", false, none⟩)
          (Reply.ok (BlockEntity.mk "u2" (some "hi") [])))).2.length = 2) :=
  ⟨⟨rfl, (dispatch_call_count _).1 rfl⟩, ⟨rfl, (dispatch_call_count _).2 rfl⟩⟩

theorem len_ne_zero_left (a b : String) (h : a.length ≠ 0) :
    (a ++ b).length ≠ 0 := by
  rw [String.length_append]; omega

theorem withCall_wf {α : Type} (c : ApiCall) (r : Reply α) (pre suf : String)
    (k : α → ToolResponse) (hpre : pre.length ≠ 0)
    (hk : ∀ v, (∃ t, k v = textResponse t)
      ∨ ((k v).isError = true ∧ (k v).text.length ≠ 0)) :
    ((∃ t, (withCall c r pre suf k).1 = textResponse t)
      ∨ ((withCall c r pre suf k).1.isError = true
        ∧ (withCall c r pre suf k).1.text.length ≠ 0))
    ∧ (r.failed = true → (withCall c r pre suf k).1.isError = true) := by
  cases r with
  | ok v =>
    constructor
    · simpa [withCall, callResult] using hk v
    · intro hf; simp [Reply.failed] at hf
  | httpError st b stx =>
    exact ⟨Or.inr ⟨rfl, len_ne_zero_left _ _ (len_ne_zero_left pre _ hpre)⟩,
      fun _ => rfl⟩
  | malformed m =>
    exact ⟨Or.inr ⟨rfl, len_ne_zero_left _ _ (len_ne_zero_left pre _ hpre)⟩,
      fun _ => rfl⟩
  | timeout =>
    exact ⟨Or.inr ⟨rfl, len_ne_zero_left _ _ (len_ne_zero_left pre _ hpre)⟩,
      fun _ => rfl⟩

theorem createPageHandler_wf (p : CreatePageParams) (r1 : Reply PageEntity)
    (r2 : Reply BlockEntity) :
    ((∃ t, (createPageHandler p r1 r2).1 = textResponse t)
      ∨ ((createPageHandler p r1 r2).1.isError = true
        ∧ (createPageHandler p r1 r2).1.text.length ≠ 0))
    ∧ ((r1.failed || (hasContent p.content && r2.failed)) = true
      → (createPageHandler p r1 r2).1.isError = true) := by
  cases r1 with
  | httpError st b stx =>
    exact ⟨Or.inr ⟨rfl, len_ne_zero_left _ _ (by decide)⟩, fun _ => rfl⟩
  | malformed m =>
    exact ⟨Or.inr ⟨rfl, len_ne_zero_left _ _ (by decide)⟩, fun _ => rfl⟩
  | timeout =>
    exact ⟨Or.inr ⟨rfl, len_ne_zero_left _ _ (by decide)⟩, fun _ => rfl⟩
  | ok v =>
    by_cases hc : hasContent p.content = true
    · cases r2 with
      | ok b =>
        simp only [createPageHandler, callResult, hc, if_true]
        exact ⟨Or.inl ⟨_, rfl⟩, fun hf => by simp [Reply.failed, hc] at hf⟩
      | httpError st b stx =>
        simp only [createPageHandler, callResult, hc, if_true]
        exact ⟨Or.inr ⟨rfl, len_ne_zero_left _ _ (by decide)⟩, fun _ => rfl⟩
      | malformed m =>
        simp only [createPageHandler, callResult, hc, if_true]
        exact ⟨Or.inr ⟨rfl, len_ne_zero_left _ _ (by decide)⟩, fun _ => rfl⟩
      | timeout =>
        simp only [createPageHandler, callResult, hc, if_true]
        exact ⟨Or.inr ⟨rfl, len_ne_zero_left _ _ (by decide)⟩, fun _ => rfl⟩
    · have hc' : hasContent p.content = false := by simpa using hc
      simp only [createPageHandler, callResult, hc', Bool.false_eq_true, if_false]
      refine ⟨Or.inl ⟨_, rfl⟩, ?_⟩
      intro hf
      simp [Reply.failed] at hf

/-- Claim C8: every tool invocation yields a well-formed result — either a
successful text response or a marked failure carrying a non-empty
human-readable message — and whenever a remote reply actually consumed by
the handler failed, the result is marked as a failure; handlers are total
functions into responses (no exception escapes), and a validation failure of
the modelled raw pipelines yields a marked failure with no network call. -/
theorem failures_surfaced :
    (∀ inv : Invocation,
      ((∃ t, (dispatch inv).1 = textResponse t)
        ∨ ((dispatch inv).1.isError = true ∧ (dispatch inv).1.text.length ≠ 0))
      ∧ (consumedFailed inv = true → (dispatch inv).1.isError = true))
    ∧ (∀ (obj : List (String × JValue)) (r : Reply (List PageEntity)) (e : String),
        parseListPages obj = Except.error e
        → (invokeListPagesRaw obj r).1.isError = true
          ∧ (invokeListPagesRaw obj r).2 = [])
    ∧ (∀ (obj : List (String × JValue)) (r : Reply SearchResult) (e : String),
        parseSearch obj = Except.error e
        → (invokeSearchRaw obj r).1.isError = true
          ∧ (invokeSearchRaw obj r).2 = []) := by
  refine ⟨?_, ?_, ?_⟩
  · intro inv
    cases inv with
    | listPages p r =>
      exact withCall_wf _ r _ _ _ (by decide) (fun v => Or.inl ⟨_, rfl⟩)
    | getPage p r =>
      exact withCall_wf _ r _ _ _ (by decide)
        (fun v => by
          cases v with
          | none => exact Or.inr ⟨rfl,
              len_ne_zero_left _ _ (len_ne_zero_left _ _ (by decide))⟩
          | some page => exact Or.inl ⟨_, rfl⟩)
    | getPageContent p r =>
      exact withCall_wf _ r _ _ _ (by decide)
        (fun blocks => by
          by_cases hb : blocks.isEmpty = true
          · exact Or.inl ⟨_, by rw [if_pos hb]⟩
          · exact Or.inl ⟨_, by rw [if_neg hb]⟩)
    | createPage p r1 r2 => exact createPageHandler_wf p r1 r2
    | deletePage p r =>
      exact withCall_wf _ r _ _ _ (by decide) (fun v => Or.inl ⟨_, rfl⟩)
    | renamePage p r =>
      exact withCall_wf _ r _ _ _ (by decide) (fun v => Or.inl ⟨_, rfl⟩)
    | getPageLinkedReferences p r =>
      exact withCall_wf _ r _ _ _ (by decide)
        (fun refs => by
          by_cases hb : refs.isEmpty = true
          · exact Or.inl ⟨_, by rw [if_pos hb]⟩
          · exact Or.inl ⟨_, by rw [if_neg hb]⟩)
    | getBlock p r =>
      exact withCall_wf _ r _ _ _ (by decide)
        (fun v => by
          cases v with
          | none => exact Or.inr ⟨rfl,
              len_ne_zero_left _ _ (len_ne_zero_left _ _ (by decide))⟩
          | some b =>
            by_cases hb : (p.include_children && !b.children.isEmpty) = true
            · exact Or.inl ⟨_, if_pos hb⟩
            · exact Or.inl ⟨_, if_neg hb⟩)
    | insertBlock p r =>
      exact withCall_wf _ r _ _ _ (by decide) (fun v => Or.inl ⟨_, rfl⟩)
    | appendBlock p r =>
      exact withCall_wf _ r _ _ _ (by decide) (fun v => Or.inl ⟨_, rfl⟩)
    | updateBlock p r =>
      exact withCall_wf _ r _ _ _ (by decide) (fun v => Or.inl ⟨_, rfl⟩)
    | removeBlock p r =>
      exact withCall_wf _ r _ _ _ (by decide) (fun v => Or.inl ⟨_, rfl⟩)
    | moveBlock p r =>
      exact withCall_wf _ r _ _ _ (by decide) (fun v => Or.inl ⟨_, rfl⟩)
    | insertBatchBlocks p r =>
      exact withCall_wf _ r _ _ _ (by decide) (fun v => Or.inl ⟨_, rfl⟩)
    | blockProperty p rset rget =>
      rcases hv : p.value with _ | v
      · simp only [dispatch, blockPropertyHandler, consumedFailed, hv]
        exact withCall_wf _ rget _ _ _ (by decide) (fun v => Or.inl ⟨_, rfl⟩)
      · simp only [dispatch, blockPropertyHandler, consumedFailed, hv]
        exact withCall_wf _ rset _ _ _ (by decide) (fun v => Or.inl ⟨_, rfl⟩)
    | search p r =>
      exact withCall_wf _ r _ _ _ (by decide) (fun v => Or.inl ⟨_, rfl⟩)
    | createJournal p r =>
      exact withCall_wf _ r _ _ _ (by decide) (fun v => Or.inl ⟨_, rfl⟩)
    | getGraphInfo r =>
      exact withCall_wf _ r _ _ _ (by decide)
        (fun v => by
          cases v with
          | none => exact Or.inr ⟨rfl, by decide⟩
          | some g => exact Or.inl ⟨_, rfl⟩)
    | getAllTags r =>
      exact withCall_wf _ r _ _ _ (by decide)
        (fun tags => by
          by_cases hb : tags.isEmpty = true
          · exact Or.inl ⟨_, by rw [if_pos hb]⟩
          · exact Or.inl ⟨_, by rw [if_neg hb]⟩)
  · intro obj r e he
    simp [invokeListPagesRaw, he, errorResponse]
  · intro obj r e he
    simp [invokeSearchRaw, he, errorResponse]

/-- Witness for claim C8: a concrete timed-out get-page invocation is
surfaced as a marked failure. -/
theorem failures_surfaced_witness :
    (dispatch (Invocation.getPage ⟨"Home", false⟩
        (Reply.timeout : Reply (Option PageEntity)))).1.isError = true :=
  (failures_surfaced.1 _).2 rfl

/-- Claim C9: for a validated logseq_list_pages invocation whose single
call succeeds, with total the length of the list remaining after the
journal and namespace filters, the response lists exactly the pages at
indices [offset, offset+limit) of the filtered list — that is,
min limit (total - offset) entries — and the more-pages note is appended
exactly when offset + limit < total. -/
theorem listPages_pagination (p : ListPagesParams) (pages0 : List PageEntity) :
    (listPagesHandler p (Reply.ok pages0)).1
      = textResponse (joinLines (
          ["**Pages** ("
              ++ toString (min p.limit ((listPagesFiltered p pages0).length - p.offset))
              ++ " of " ++ toString (listPagesFiltered p pages0).length ++ ")", ""]
          ++ (((listPagesFiltered p pages0).drop p.offset).take p.limit).map
              formatPageSummary
          ++ (if p.offset + p.limit < (listPagesFiltered p pages0).length then
              ["", "_More pages available. Use offset="
                ++ toString (p.offset + p.limit) ++ " to see next batch._"]
            else [])))
      ∧ (((listPagesFiltered p pages0).drop p.offset).take p.limit).length
        = min p.limit ((listPagesFiltered p pages0).length - p.offset) := by
  have hlen : (((listPagesFiltered p pages0).drop p.offset).take p.limit).length
      = min p.limit ((listPagesFiltered p pages0).length - p.offset) := by
    simp [List.length_take, List.length_drop]
  refine ⟨?_, hlen⟩
  simp only [listPagesHandler, withCall, callResult, listPagesText, hlen]

theorem lookup_all {p : String × JValue → Bool} :
    ∀ (obj : List (String × JValue)), obj.all p = true →
      ∀ (k : String) (v : JValue), List.lookup k obj = some v → p (k, v) = true := by
  intro obj
  induction obj with
  | nil => intro _ k v hv; simp [List.lookup] at hv
  | cons kv t ih =>
    intro hall k v hv
    obtain ⟨k', v'⟩ := kv
    rw [List.all_cons, Bool.and_eq_true] at hall
    by_cases hk : k = k'
    · subst hk
      simp [List.lookup] at hv
      subst hv
      exact hall.1
    · have hbeq : (k == k') = false := beq_eq_false_iff_ne.mpr hk
      rw [List.lookup, hbeq] at hv
      exact ih hall.2 k v hv

theorem listPagesFieldOk_key (k : String) (v : JValue)
    (h : listPagesFieldOk k v = true) : listPagesKeys.contains k = true := by
  unfold listPagesFieldOk at h
  split_ifs at h with h1 h2 h3 h4
  · subst h1; decide
  · subst h2; decide
  · subst h3; decide
  · subst h4; decide

theorem parseLimit_valid (o : Option JValue)
    (hv : ∀ v, o = some v → listPagesFieldOk "limit" v = true) :
    ∃ n, parseLimit o = Except.ok n ∧ (o = none → n = 50) := by
  cases o with
  | none => exact ⟨50, rfl, fun _ => rfl⟩
  | some v =>
    have h := hv v rfl
    cases v with
    | jnum n =>
      have hn : 1 ≤ n ∧ n ≤ 500 := of_decide_eq_true h
      exact ⟨n.toNat, by simp [parseLimit, hn], by simp⟩
    | jnull => exact absurd h Bool.false_ne_true
    | jbool b => exact absurd h Bool.false_ne_true
    | jstr s => exact absurd h Bool.false_ne_true
    | jarr xs => exact absurd h Bool.false_ne_true
    | jobj fs => exact absurd h Bool.false_ne_true

theorem parseOffset_valid (o : Option JValue)
    (hv : ∀ v, o = some v → listPagesFieldOk "offset" v = true) :
    ∃ n, parseOffset o = Except.ok n ∧ (o = none → n = 0) := by
  cases o with
  | none => exact ⟨0, rfl, fun _ => rfl⟩
  | some v =>
    have h := hv v rfl
    cases v with
    | jnum n =>
      have hn : 0 ≤ n := of_decide_eq_true h
      exact ⟨n.toNat, by simp [parseOffset, hn], by simp⟩
    | jnull => exact absurd h Bool.false_ne_true
    | jbool b => exact absurd h Bool.false_ne_true
    | jstr s => exact absurd h Bool.false_ne_true
    | jarr xs => exact absurd h Bool.false_ne_true
    | jobj fs => exact absurd h Bool.false_ne_true

theorem parseJournalOnly_valid (o : Option JValue)
    (hv : ∀ v, o = some v → listPagesFieldOk "journal_only" v = true) :
    ∃ b, parseJournalOnly o = Except.ok b := by
  cases o with
  | none => exact ⟨false, rfl⟩
  | some v =>
    have h := hv v rfl
    cases v with
    | jbool b => exact ⟨b, rfl⟩
    | jnull => exact absurd h Bool.false_ne_true
    | jnum n => exact absurd h Bool.false_ne_true
    | jstr s => exact absurd h Bool.false_ne_true
    | jarr xs => exact absurd h Bool.false_ne_true
    | jobj fs => exact absurd h Bool.false_ne_true

theorem parseNamespaceField_valid (o : Option JValue)
    (hv : ∀ v, o = some v → listPagesFieldOk "namespace" v = true) :
    ∃ ns, parseNamespaceField o = Except.ok ns := by
  cases o with
  | none => exact ⟨none, rfl⟩
  | some v =>
    have h := hv v rfl
    cases v with
    | jstr s => exact ⟨some s, rfl⟩
    | jnull => exact absurd h Bool.false_ne_true
    | jnum n => exact absurd h Bool.false_ne_true
    | jbool b => exact absurd h Bool.false_ne_true
    | jarr xs => exact absurd h Bool.false_ne_true
    | jobj fs => exact absurd h Bool.false_ne_true

/-- Claim C4: every input to logseq_list_pages satisfying the declared
constraints of ListPagesSchema is accepted by the validator, an omitted
limit defaulting to 50 and an omitted offset defaulting to 0. -/
theorem listPages_valid_defaults (obj : List (String × JValue))
    (h : listPagesValidInput obj = true) :
    ∃ p : ListPagesParams, parseListPages obj = Except.ok p
      ∧ (List.lookup "limit" obj = none → p.limit = 50)
      ∧ (List.lookup "offset" obj = none → p.offset = 0) := by
  have hfield : ∀ (k : String) (v : JValue), List.lookup k obj = some v
      → listPagesFieldOk k v = true := by
    intro k v hv
    exact lookup_all obj h k v hv
  have hstrict : obj.all (fun kv => listPagesKeys.contains kv.1) = true := by
    rw [List.all_eq_true]
    intro kv hkv
    exact listPagesFieldOk_key kv.1 kv.2 (List.all_eq_true.mp h kv hkv)
  obtain ⟨l, hl1, hl2⟩ := parseLimit_valid (List.lookup "limit" obj)
    (fun v hv => hfield "limit" v hv)
  obtain ⟨o, ho1, ho2⟩ := parseOffset_valid (List.lookup "offset" obj)
    (fun v hv => hfield "offset" v hv)
  obtain ⟨j, hj1⟩ := parseJournalOnly_valid (List.lookup "journal_only" obj)
    (fun v hv => hfield "journal_only" v hv)
  obtain ⟨ns, hns1⟩ := parseNamespaceField_valid (List.lookup "namespace" obj)
    (fun v hv => hfield "namespace" v hv)
  refine ⟨⟨l, o, j, ns⟩, ?_, hl2, ho2⟩
  simp only [parseListPages, if_pos hstrict, hl1, ho1, hj1, hns1]

/-- Witness for claim C4: an input giving only journal_only is accepted
with limit 50 and offset 0. -/
theorem listPages_valid_defaults_witness :
    (∃ p : ListPagesParams,
      parseListPages [("journal_only", JValue.jbool true)] = Except.ok p
        ∧ (List.lookup "limit" [("journal_only", JValue.jbool true)] = none
            → p.limit = 50)
        ∧ (List.lookup "offset" [("journal_only", JValue.jbool true)] = none
            → p.offset = 0))
    ∧ parseListPages [("journal_only", JValue.jbool true)]
        = Except.ok ⟨50, 0, true, none⟩ :=
  ⟨listPages_valid_defaults _ (by decide), rfl⟩

theorem invokeListPagesRaw_err (obj : List (String × JValue))
    (r : Reply (List PageEntity))
    (h : ∃ e, parseListPages obj = Except.error e) :
    (invokeListPagesRaw obj r).1.isError = true
      ∧ (invokeListPagesRaw obj r).2 = [] := by
  obtain ⟨e, he⟩ := h
  simp [invokeListPagesRaw, he, errorResponse]

theorem invokeSearchRaw_err (obj : List (String × JValue))
    (r : Reply SearchResult)
    (h : ∃ e, parseSearch obj = Except.error e) :
    (invokeSearchRaw obj r).1.isError = true ∧ (invokeSearchRaw obj r).2 = [] := by
  obtain ⟨e, he⟩ := h
  simp [invokeSearchRaw, he, errorResponse]

theorem parseListPages_limit_range (obj : List (String × JValue)) (n : Int)
    (hl : List.lookup "limit" obj = some (JValue.jnum n))
    (hn : 500 < n ∨ n < 1) :
    ∃ e, parseListPages obj = Except.error e := by
  unfold parseListPages
  by_cases hs : obj.all (fun kv => listPagesKeys.contains kv.1) = true
  · rw [if_pos hs, hl]
    have hcond : ¬(1 ≤ n ∧ n ≤ 500) := by omega
    rw [show parseLimit (some (JValue.jnum n))
        = Except.error "limit must be between 1 and 500" from by
      simp [parseLimit, hcond]]
    exact ⟨_, rfl⟩
  · rw [if_neg hs]
    exact ⟨_, rfl⟩

theorem parseListPages_offset_neg (obj : List (String × JValue)) (n : Int)
    (hl : List.lookup "offset" obj = some (JValue.jnum n)) (hn : n < 0) :
    ∃ e, parseListPages obj = Except.error e := by
  unfold parseListPages
  by_cases hs : obj.all (fun kv => listPagesKeys.contains kv.1) = true
  · rw [if_pos hs, hl]
    cases hpl : parseLimit (List.lookup "limit" obj) with
    | error e => exact ⟨e, rfl⟩
    | ok l =>
      have hcond : ¬(0 ≤ n) := by omega
      rw [show parseOffset (some (JValue.jnum n))
          = Except.error "offset must be at least 0" from by
        simp [parseOffset, hcond]]
      exact ⟨_, rfl⟩
  · rw [if_neg hs]
    exact ⟨_, rfl⟩

theorem parseListPages_unknown_key (obj : List (String × JValue))
    (k : String) (v : JValue) (hm : (k, v) ∈ obj)
    (hk : listPagesKeys.contains k = false) :
    ∃ e, parseListPages obj = Except.error e := by
  unfold parseListPages
  have hs : ¬(obj.all (fun kv => listPagesKeys.contains kv.1) = true) := by
    intro hall
    have := List.all_eq_true.mp hall (k, v) hm
    rw [hk] at this
    exact Bool.false_ne_true this
  rw [if_neg hs]
  exact ⟨_, rfl⟩

theorem parseSearch_empty_query (obj : List (String × JValue))
    (hl : List.lookup "query" obj = some (JValue.jstr "")) :
    ∃ e, parseSearch obj = Except.error e := by
  unfold parseSearch
  by_cases hs : obj.all (fun kv => searchKeys.contains kv.1) = true
  · rw [if_pos hs, hl]
    exact ⟨_, rfl⟩
  · rw [if_neg hs]
    exact ⟨_, rfl⟩

theorem parseSearch_missing_query (obj : List (String × JValue))
    (hl : List.lookup "query" obj = none) :
    ∃ e, parseSearch obj = Except.error e := by
  unfold parseSearch
  by_cases hs : obj.all (fun kv => searchKeys.contains kv.1) = true
  · rw [if_pos hs, hl]
    exact ⟨_, rfl⟩
  · rw [if_neg hs]
    exact ⟨_, rfl⟩

/-- Claim C5: an input violating a declared schema constraint — a pagination
limit above 500 or below 1, a negative offset, an empty required query
string, a missing required query field, or a field outside the recognized
set — is rejected by the validator with a marked failure result before any
network call is issued. -/
theorem validation_rejects :
    (∀ (obj : List (String × JValue)) (r : Reply (List PageEntity)) (n : Int),
        List.lookup "limit" obj = some (JValue.jnum n) → 500 < n ∨ n < 1
        → (invokeListPagesRaw obj r).1.isError = true
          ∧ (invokeListPagesRaw obj r).2 = [])
    ∧ (∀ (obj : List (String × JValue)) (r : Reply (List PageEntity)) (n : Int),
        List.lookup "offset" obj = some (JValue.jnum n) → n < 0
        → (invokeListPagesRaw obj r).1.isError = true
          ∧ (invokeListPagesRaw obj r).2 = [])
    ∧ (∀ (obj : List (String × JValue)) (r : Reply SearchResult),
        List.lookup "query" obj = some (JValue.jstr "")
        → (invokeSearchRaw obj r).1.isError = true
          ∧ (invokeSearchRaw obj r).2 = [])
    ∧ (∀ (obj : List (String × JValue)) (r : Reply SearchResult),
        List.lookup "query" obj = none
        → (invokeSearchRaw obj r).1.isError = true
          ∧ (invokeSearchRaw obj r).2 = [])
    ∧ (∀ (obj : List (String × JValue)) (r : Reply (List PageEntity))
          (k : String) (v : JValue),
        (k, v) ∈ obj → listPagesKeys.contains k = false
        → (invokeListPagesRaw obj r).1.isError = true
          ∧ (invokeListPagesRaw obj r).2 = []) := by
  refine ⟨?_, ?_, ?_, ?_, ?_⟩
  · intro obj r n hl hn
    exact invokeListPagesRaw_err obj r (parseListPages_limit_range obj n hl hn)
  · intro obj r n hl hn
    exact invokeListPagesRaw_err obj r (parseListPages_offset_neg obj n hl hn)
  · intro obj r hl
    exact invokeSearchRaw_err obj r (parseSearch_empty_query obj hl)
  · intro obj r hl
    exact invokeSearchRaw_err obj r (parseSearch_missing_query obj hl)
  · intro obj r k v hm hk
    exact invokeListPagesRaw_err obj r (parseListPages_unknown_key obj k v hm hk)

/-- Witness for claim C5: a concrete over-limit input is rejected with no
network call. -/
theorem validation_rejects_witness :
    (invokeListPagesRaw [("limit", JValue.jnum 501)] (Reply.ok [])).1.isError = true
      ∧ (invokeListPagesRaw [("limit", JValue.jnum 501)] (Reply.ok [])).2 = [] :=
  validation_rejects.1 [("limit", JValue.jnum 501)] (Reply.ok []) 501 rfl
    (Or.inl (by omega))
